import Mathlib

/-!
Verification development for the Vigil offline-dose queue and barcode-scanner
lifecycle controller.

Shallow embedding of:
  * `src/src/lib/offlineStore.ts` — the IndexedDB-backed pending-dose queue
    (`savePendingDose`, `getPendingDoses`, `removePendingDose`,
    `getPendingDosesCount`);
  * `src/src/hooks/useOfflineSync.ts` — the sync coordinator
    (`syncPendingDoses` drain pass, `isSyncing` re-entrancy flag);
  * `src/src/components/BarcodeScanner.tsx` — the scanner lifecycle
    controller (start re-entrancy guard, decode debounce, torch control,
    error classification, retry backoff).

The IndexedDB object store uses `keyPath: 'id'`; it is modelled as a list of
records, with the well-formedness invariant that ids are distinct (IndexedDB
enforces key uniqueness).  `store.add` rejects a record whose key is already
present (ConstraintError) and leaves the store unchanged; `store.delete` by
key is idempotent.
-/

/-- The `PendingDose` record of `src/src/lib/offlineStore.ts` (lines 7-16). -/
structure PendingDose where
  id : String
  user_id : String
  medication_name : String
  verified : Bool
  taken_at : String
  created_at : String
  prescription_id : Option String
  notes : Option String
deriving DecidableEq, Repr

/-- The contents of the `pending-doses` IndexedDB object store. -/
abbrev Store := List PendingDose

/-- Failure of the underlying IndexedDB write.  `store.add` fires
`onerror` with a ConstraintError when the key is already present. -/
inductive StorageError
  | constraintViolation
deriving DecidableEq, Repr

/-- Does the store already hold a record with key `i`?  (IndexedDB key
lookup on the `id` keyPath.) -/
def hasId (s : Store) (i : String) : Bool :=
  s.any (fun d => d.id = i)

/-- `savePendingDose` (offlineStore.ts lines 34-45): a single `store.add`.
IndexedDB `add` appends the record keyed by `dose.id`, rejecting with a
ConstraintError if that key is already present. -/
def savePendingDose (s : Store) (d : PendingDose) : Except StorageError Store :=
  if hasId s d.id then Except.error StorageError.constraintViolation
  else Except.ok (s ++ [d])

/-- The store contents after a `savePendingDose` call: a rejected `add`
aborts the transaction, leaving the store as it was. -/
def saveResultStore (s : Store) (d : PendingDose) : Store :=
  match savePendingDose s d with
  | Except.ok s₂ => s₂
  | Except.error _ => s

/-- `getPendingDoses` (offlineStore.ts lines 47-58): `store.getAll()`. -/
def getPendingDoses (s : Store) : List PendingDose := s

/-- `removePendingDose` (offlineStore.ts lines 60-71): `store.delete(id)`,
which removes the record with that key and is a no-op when absent. -/
def removePendingDose (s : Store) (i : String) : Store :=
  s.filter (fun d => d.id != i)

/-- `getPendingDosesCount` (offlineStore.ts lines 86-97): `store.count()`. -/
def getPendingDosesCount (s : Store) : Nat := s.length

/-- Distinctness of ids: the well-formedness invariant IndexedDB maintains
for a store with `keyPath: 'id'`. -/
def idsNodup (s : Store) : Prop := (s.map PendingDose.id).Nodup

-- Basic facts about removal.

theorem mem_removePendingDose {s : Store} {i : String} {e : PendingDose} :
    e ∈ removePendingDose s i ↔ e ∈ s ∧ e.id ≠ i := by
  simp [removePendingDose, List.mem_filter, bne_iff_ne]

/-- C5: saving a fresh dose makes it visible to `listAll`, and removing its
id makes `listAll` exclude it.  Stated for any store not already holding
the dose's id (`store.add` would otherwise reject, cf. the C10 theorem). -/
theorem save_listAll_roundTrip (s : Store) (d : PendingDose)
    (hfresh : hasId s d.id = false) :
    ∃ s₂, savePendingDose s d = Except.ok s₂ ∧
      d ∈ getPendingDoses s₂ ∧
      d ∉ getPendingDoses (removePendingDose s₂ d.id) ∧
      ∀ e ∈ getPendingDoses (removePendingDose s₂ d.id), e.id ≠ d.id := by
  refine ⟨s ++ [d], ?_, ?_, ?_, ?_⟩
  · simp [savePendingDose, hfresh]
  · simp [getPendingDoses]
  · intro hmem
    rw [getPendingDoses, mem_removePendingDose] at hmem
    exact hmem.2 rfl
  · intro e hmem
    rw [getPendingDoses, mem_removePendingDose] at hmem
    exact hmem.2

/-- Witness for `save_listAll_roundTrip` at a concrete dose and store. -/
theorem save_listAll_roundTrip_witness :
    hasId [] (PendingDose.mk "d1" "u1" "aspirin" true "t1" "t2" none none).id
        = false ∧
    (∃ s₂, savePendingDose []
        (PendingDose.mk "d1" "u1" "aspirin" true "t1" "t2" none none)
        = Except.ok s₂ ∧
      (PendingDose.mk "d1" "u1" "aspirin" true "t1" "t2" none none)
        ∈ getPendingDoses s₂ ∧
      (PendingDose.mk "d1" "u1" "aspirin" true "t1" "t2" none none)
        ∉ getPendingDoses (removePendingDose s₂ "d1") ∧
      ∀ e ∈ getPendingDoses (removePendingDose s₂ "d1"), e.id ≠ "d1") :=
  ⟨rfl, save_listAll_roundTrip [] _ rfl⟩

/-- C10: `savePendingDose` is not an upsert.  Adding a dose whose id is
already present is rejected by the underlying `store.add` and the store is
left exactly as it was. -/
theorem save_rejects_duplicate (s : Store) (d : PendingDose)
    (hdup : hasId s d.id = true) :
    savePendingDose s d = Except.error StorageError.constraintViolation ∧
    saveResultStore s d = s := by
  constructor
  · simp [savePendingDose, hdup]
  · simp [saveResultStore, savePendingDose, hdup]

/-- Witness for `save_rejects_duplicate`: saving a dose with the id of a
queued record fails and leaves the queue unchanged. -/
theorem save_rejects_duplicate_witness :
    hasId [PendingDose.mk "d1" "u1" "aspirin" true "t1" "t2" none none]
        (PendingDose.mk "d1" "u9" "ibuprofen" false "t9" "t9" none none).id
        = true ∧
    (savePendingDose [PendingDose.mk "d1" "u1" "aspirin" true "t1" "t2" none none]
        (PendingDose.mk "d1" "u9" "ibuprofen" false "t9" "t9" none none)
        = Except.error StorageError.constraintViolation ∧
      saveResultStore [PendingDose.mk "d1" "u1" "aspirin" true "t1" "t2" none none]
        (PendingDose.mk "d1" "u9" "ibuprofen" false "t9" "t9" none none)
        = [PendingDose.mk "d1" "u1" "aspirin" true "t1" "t2" none none]) :=
  ⟨rfl, save_rejects_duplicate _ _ rfl⟩

/-!
## Sync Coordinator drain pass (`useOfflineSync.ts`, `syncPendingDoses`)

The drain (lines 14-72) snapshots the queue with `getPendingDoses()`, then
for each record attempts a remote insert; on success it removes the record
from the queue and bumps `syncedCount`, on failure it bumps `failedCount`
and leaves the record queued.  Remote-write success is modelled by an
oracle `wOk : PendingDose → Bool` (the subset S of the claim).
-/

/-- Result of one drain pass: final queue contents plus the two counters
reported to the toast notifier. -/
structure SyncOutcome where
  store : Store
  syncedCount : Nat
  failedCount : Nat
deriving DecidableEq, Repr

/-- The `for (const dose of pendingDoses)` loop of `syncPendingDoses`
(useOfflineSync.ts lines 30-52), over the snapshot list, threading the
queue and both counters. -/
def processDoses (wOk : PendingDose → Bool) :
    List PendingDose → Store → Nat → Nat → SyncOutcome
  | [], s, sc, fc => ⟨s, sc, fc⟩
  | d :: rest, s, sc, fc =>
    if wOk d then processDoses wOk rest (removePendingDose s d.id) (sc + 1) fc
    else processDoses wOk rest s sc (fc + 1)

/-- One drain pass of `syncPendingDoses` (useOfflineSync.ts lines 14-72):
snapshot the queue, then run the loop.  (The early return on an empty
snapshot yields the same outcome as the loop on `[]`.) -/
def syncPendingDoses (wOk : PendingDose → Bool) (s : Store) : SyncOutcome :=
  processDoses wOk (getPendingDoses s) s 0 0

theorem processDoses_syncedCount (wOk : PendingDose → Bool) :
    ∀ (l : List PendingDose) (s : Store) (sc fc : Nat),
      (processDoses wOk l s sc fc).syncedCount = sc + l.countP wOk := by
  intro l
  induction l with
  | nil => intro s sc fc; simp [processDoses]
  | cons d rest ih =>
    intro s sc fc
    rw [List.countP_cons]
    by_cases h : wOk d = true
    · rw [processDoses, if_pos h, ih, h]
      simp; omega
    · rw [processDoses, if_neg h, ih]
      simp [h]

theorem processDoses_failedCount (wOk : PendingDose → Bool) :
    ∀ (l : List PendingDose) (s : Store) (sc fc : Nat),
      (processDoses wOk l s sc fc).failedCount
        = fc + l.countP (fun d => !wOk d) := by
  intro l
  induction l with
  | nil => intro s sc fc; simp [processDoses]
  | cons d rest ih =>
    intro s sc fc
    rw [List.countP_cons]
    by_cases h : wOk d = true
    · rw [processDoses, if_pos h, ih]
      simp [h]
    · rw [processDoses, if_neg h, ih]
      simp [h]; omega

theorem processDoses_store (wOk : PendingDose → Bool) :
    ∀ (l : List PendingDose) (s : Store) (sc fc : Nat),
      (processDoses wOk l s sc fc).store
        = s.filter (fun x => !hasId (l.filter wOk) x.id) := by
  intro l
  induction l with
  | nil => intro s sc fc; simp [processDoses, hasId]
  | cons d rest ih =>
    intro s sc fc
    by_cases h : wOk d = true
    · rw [processDoses, if_pos h, ih, List.filter_cons_of_pos h,
        removePendingDose, List.filter_filter]
      apply List.filter_congr
      intro x _
      by_cases hxd : x.id = d.id
      · simp [hasId, hxd]
      · simp [hasId, List.any_cons, bne, hxd, Ne.symm hxd]
    · rw [processDoses, if_neg h, ih, List.filter_cons_of_neg h]

/-- C1: one drain pass over a well-formed queue removes exactly the records
whose remote write succeeded (`wOk`): afterwards `listAll()` returns exactly
the complement of the successful subset, and the reported counters equal the
number of successes and of failures. -/
theorem syncPendingDoses_drain (wOk : PendingDose → Bool) (s : Store)
    (hnd : idsNodup s) :
    (syncPendingDoses wOk s).store = s.filter (fun d => !wOk d) ∧
    (∀ d ∈ s, d ∈ getPendingDoses (syncPendingDoses wOk s).store
        ↔ wOk d = false) ∧
    (syncPendingDoses wOk s).syncedCount = s.countP wOk ∧
    (syncPendingDoses wOk s).failedCount = s.length - s.countP wOk := by
  have hnd' : (s.map PendingDose.id).Nodup := hnd
  have hstore : (syncPendingDoses wOk s).store = s.filter (fun d => !wOk d) := by
    rw [syncPendingDoses, getPendingDoses, processDoses_store]
    apply List.filter_congr
    intro x hx
    congr 1
    by_cases h : wOk x = true
    · rw [h]
      simp only [hasId, List.any_eq_true, List.mem_filter, decide_eq_true_eq]
      exact ⟨x, ⟨hx, h⟩, rfl⟩
    · have h' : wOk x = false := Bool.eq_false_iff.mpr h
      rw [h', Bool.eq_false_iff]
      intro hcon
      simp only [hasId, List.any_eq_true, List.mem_filter,
        decide_eq_true_eq] at hcon
      obtain ⟨e, he, hid⟩ := hcon
      have : e = x := List.inj_on_of_nodup_map hnd' he.1 hx hid
      rw [this] at he
      exact h he.2
  refine ⟨hstore, ?_, ?_, ?_⟩
  · intro d hd
    rw [getPendingDoses, hstore, List.mem_filter]
    simp [hd]
  · rw [syncPendingDoses, getPendingDoses, processDoses_syncedCount]
    omega
  · rw [syncPendingDoses, getPendingDoses, processDoses_failedCount]
    have hlen := List.length_eq_countP_add_countP (p := wOk) (l := s)
    simp only [decide_not, Bool.decide_coe] at hlen
    omega

/-- Witness for `syncPendingDoses_drain`: a three-record queue where the
remote write succeeds exactly for the verified records. -/
theorem syncPendingDoses_drain_witness :
    idsNodup
      [PendingDose.mk "a" "u" "m1" true "t" "t" none none,
       PendingDose.mk "b" "u" "m2" false "t" "t" none none,
       PendingDose.mk "c" "u" "m3" true "t" "t" none none] ∧
    ((syncPendingDoses (fun d => d.verified)
        [PendingDose.mk "a" "u" "m1" true "t" "t" none none,
         PendingDose.mk "b" "u" "m2" false "t" "t" none none,
         PendingDose.mk "c" "u" "m3" true "t" "t" none none]).store
      = List.filter (fun d => !d.verified)
          [PendingDose.mk "a" "u" "m1" true "t" "t" none none,
           PendingDose.mk "b" "u" "m2" false "t" "t" none none,
           PendingDose.mk "c" "u" "m3" true "t" "t" none none] ∧
    (∀ d ∈ [PendingDose.mk "a" "u" "m1" true "t" "t" none none,
            PendingDose.mk "b" "u" "m2" false "t" "t" none none,
            PendingDose.mk "c" "u" "m3" true "t" "t" none none],
        d ∈ getPendingDoses (syncPendingDoses (fun d => d.verified)
            [PendingDose.mk "a" "u" "m1" true "t" "t" none none,
             PendingDose.mk "b" "u" "m2" false "t" "t" none none,
             PendingDose.mk "c" "u" "m3" true "t" "t" none none]).store
          ↔ d.verified = false) ∧
    (syncPendingDoses (fun d => d.verified)
        [PendingDose.mk "a" "u" "m1" true "t" "t" none none,
         PendingDose.mk "b" "u" "m2" false "t" "t" none none,
         PendingDose.mk "c" "u" "m3" true "t" "t" none none]).syncedCount
      = List.countP (fun d => d.verified)
          [PendingDose.mk "a" "u" "m1" true "t" "t" none none,
           PendingDose.mk "b" "u" "m2" false "t" "t" none none,
           PendingDose.mk "c" "u" "m3" true "t" "t" none none] ∧
    (syncPendingDoses (fun d => d.verified)
        [PendingDose.mk "a" "u" "m1" true "t" "t" none none,
         PendingDose.mk "b" "u" "m2" false "t" "t" none none,
         PendingDose.mk "c" "u" "m3" true "t" "t" none none]).failedCount
      = 3 - List.countP (fun d => d.verified)
          [PendingDose.mk "a" "u" "m1" true "t" "t" none none,
           PendingDose.mk "b" "u" "m2" false "t" "t" none none,
           PendingDose.mk "c" "u" "m3" true "t" "t" none none]) :=
  ⟨by unfold idsNodup; decide,
   syncPendingDoses_drain (fun d => d.verified) _ (by unfold idsNodup; decide)⟩

/-!
## Decode debounce (`BarcodeScanner.tsx`, decoded-value callback)

The decoding engine's success callback (BarcodeScanner.tsx lines 227-247):
a value equal to `lastScannedRef.current` is suppressed; otherwise the
value is stored, any pending reset timeout is cleared, the success callback
fires with the value, and a 3000 ms timeout is armed that resets
`lastScannedRef.current` to null.  The timeout firing is modelled as an
explicit `coolDownElapsed` event.
-/

/-- The fixed cool-down of the debounce reset timeout (BarcodeScanner.tsx
line 246: `setTimeout(..., 3000)`). -/
def debounceCoolDownMs : Nat := 3000

/-- The mutable cells driving the debounce: `lastScannedRef` and whether a
reset timeout (`debounceTimeoutRef`) is pending. -/
structure DebounceState where
  lastScanned : Option String
  timeoutPending : Bool
deriving DecidableEq, Repr

/-- Fresh component state: `lastScannedRef.current = null`, no timeout. -/
def debounceInit : DebounceState := ⟨none, false⟩

/-- Events reaching the debounce logic: the engine reporting a decoded
string for a frame, or the 3-second reset timeout firing. -/
inductive ScanEvent
  | decoded (text : String)
  | coolDownElapsed
deriving DecidableEq, Repr

/-- One event step of the callback logic; the second component is the
value passed to `onScanSuccess`, if the callback fired. -/
def debounceStep (st : DebounceState) : ScanEvent → DebounceState × Option String
  | ScanEvent.decoded t =>
    if st.lastScanned = some t then (st, none)
    else (⟨some t, true⟩, some t)
  | ScanEvent.coolDownElapsed =>
    if st.timeoutPending then (⟨none, false⟩, none) else (st, none)

/-- Run a sequence of events, collecting every `onScanSuccess` firing in
order. -/
def runScanEvents (st : DebounceState) : List ScanEvent → DebounceState × List String
  | [] => (st, [])
  | e :: rest =>
    let p := debounceStep st e
    let q := runScanEvents p.1 rest
    (q.1, p.2.toList ++ q.2)

theorem runScanEvents_append (st : DebounceState) (l₁ l₂ : List ScanEvent) :
    runScanEvents st (l₁ ++ l₂)
      = ((runScanEvents (runScanEvents st l₁).1 l₂).1,
         (runScanEvents st l₁).2 ++ (runScanEvents (runScanEvents st l₁).1 l₂).2) := by
  induction l₁ generalizing st with
  | nil => simp [runScanEvents]
  | cons e rest ih =>
    simp [runScanEvents, ih (debounceStep st e).1, List.append_assoc]

theorem runScanEvents_replicate_same (v : String) (b : Bool) (k : Nat) :
    runScanEvents ⟨some v, b⟩ (List.replicate k (ScanEvent.decoded v))
      = (⟨some v, b⟩, []) := by
  induction k with
  | zero => rfl
  | succ k ih => simp [List.replicate_succ, runScanEvents, debounceStep, ih]

/-- C2: if the engine reports the same string on `n ≥ 1` consecutive
frames (from any state not already holding that string), the success
callback fires exactly once, and a distinct string reported immediately
afterwards fires again. -/
theorem debounce_fires_once (st : DebounceState) (v w : String) (n : Nat)
    (hn : 1 ≤ n) (hst : st.lastScanned ≠ some v) (hvw : w ≠ v) :
    (runScanEvents st (List.replicate n (ScanEvent.decoded v))).2 = [v] ∧
    (runScanEvents st (List.replicate n (ScanEvent.decoded v)
        ++ [ScanEvent.decoded w])).2 = [v, w] := by
  obtain ⟨k, rfl⟩ : ∃ k, n = k + 1 := ⟨n - 1, by omega⟩
  have hrep : runScanEvents st (List.replicate (k + 1) (ScanEvent.decoded v))
      = (⟨some v, true⟩, [v]) := by
    rw [List.replicate_succ, runScanEvents]
    simp [debounceStep, hst, runScanEvents_replicate_same]
  refine ⟨by rw [hrep], ?_⟩
  rw [runScanEvents_append, hrep]
  have hvw' : v ≠ w := fun h => hvw h.symm
  simp [runScanEvents, debounceStep, hvw']

/-- Witness for `debounce_fires_once`: three identical frames then a
distinct one, from the fresh state. -/
theorem debounce_fires_once_witness :
    1 ≤ 3 ∧ debounceInit.lastScanned ≠ some "A" ∧ "B" ≠ "A" ∧
    ((runScanEvents debounceInit
        (List.replicate 3 (ScanEvent.decoded "A"))).2 = ["A"] ∧
     (runScanEvents debounceInit
        (List.replicate 3 (ScanEvent.decoded "A")
          ++ [ScanEvent.decoded "B"])).2 = ["A", "B"]) :=
  ⟨by decide, by decide, by decide,
   debounce_fires_once debounceInit "A" "B" 3 (by decide) (by decide) (by decide)⟩

/-- C7: an execution in which a value is decoded, the 3-second suppression
window elapses (clearing the suppressed-value memory), and the same value
then fires a fresh success callback.  Without the elapse the repeat is
suppressed. -/
theorem debounce_rescan_after_coolDown :
    debounceCoolDownMs = 3000 ∧
    (runScanEvents debounceInit
      [ScanEvent.decoded "X", ScanEvent.decoded "X"]).2 = ["X"] ∧
    (runScanEvents debounceInit
      [ScanEvent.decoded "X", ScanEvent.coolDownElapsed]).1.lastScanned
        = none ∧
    (runScanEvents debounceInit
      [ScanEvent.decoded "X", ScanEvent.decoded "X",
       ScanEvent.coolDownElapsed, ScanEvent.decoded "X"]).2 = ["X", "X"] := by
  refine ⟨rfl, ?_, ?_, ?_⟩ <;> decide

/-!
## Start-failure classification (`BarcodeScanner.tsx`, catch of `startScanner`)

The catch block (lines 287-313) inspects `err.name` / `err.message` and
sets `permissionState`, `errorType` and `errorMessage`.  The `errorType`
union in the source is `'busy' | 'denied' | 'not-found' | 'generic'`
(line 62).  JavaScript `String.prototype.includes` is modelled by
`strIncludes`.
-/

/-- Does `needle` occur at the head of `hay`? -/
def leadingMatch : List Char → List Char → Bool
  | [], _ => true
  | _ :: _, [] => false
  | a :: as, b :: bs => a = b && leadingMatch as bs

/-- Does `needle` occur contiguously anywhere in `hay`? -/
def subOccurs (needle : List Char) : List Char → Bool
  | [] => needle.isEmpty
  | c :: rest => leadingMatch needle (c :: rest) || subOccurs needle rest

/-- JavaScript `s.includes(sub)`. -/
def strIncludes (s sub : String) : Bool := subOccurs sub.data s.data

/-- The `permissionState` union of BarcodeScanner.tsx line 15. -/
inductive PermissionState
  | prompt
  | granted
  | denied
  | error
deriving DecidableEq, Repr

/-- The `errorType` union of BarcodeScanner.tsx line 62: these four values
are the only distinguished failure kinds the UI ever receives. -/
inductive ErrorType
  | busy
  | denied
  | notFound
  | generic
deriving DecidableEq, Repr

/-- The caught exception: `err.name` and `err.message` (empty strings for
the absent-field cases `err?.name || ''`). -/
structure StartError where
  name : String
  message : String
deriving DecidableEq, Repr

/-- What the catch block surfaces to the UI. -/
structure SurfacedError where
  permissionState : PermissionState
  errorType : ErrorType
  errorMessage : String
deriving DecidableEq, Repr

/-- The error classification of `startScanner`'s catch block
(BarcodeScanner.tsx lines 293-313). -/
def classifyStartError (e : StartError) : SurfacedError :=
  if e.name = "NotAllowedError" || strIncludes e.message "Permission" then
    ⟨PermissionState.denied, ErrorType.denied,
     "Camera access was denied. Please allow camera access to scan barcodes."⟩
  else if e.name = "NotReadableError" || strIncludes e.message "Could not start"
      || strIncludes e.message "in use" then
    ⟨PermissionState.error, ErrorType.busy,
     "Camera is busy or unavailable. Please close other camera apps and try again."⟩
  else if e.name = "NotFoundError" || strIncludes e.message "not found" then
    ⟨PermissionState.error, ErrorType.notFound,
     "No camera found on this device."⟩
  else if e.name = "OverconstrainedError" then
    ⟨PermissionState.error, ErrorType.generic,
     "Camera settings not supported. Please try again."⟩
  else
    ⟨PermissionState.error, ErrorType.generic,
     if e.message = "" then "Failed to start camera. Please try again."
     else e.message⟩

/-- Counterexample to C6: a failure from unsatisfiable camera constraints
(`OverconstrainedError`) is surfaced with `errorType` `generic` — the very
same kind as an unrecognised failure — not as a distinct
`unsupported-constraints` kind (no such kind exists in the `errorType`
union). -/
theorem overconstrained_surfaced_as_generic :
    (classifyStartError (StartError.mk "OverconstrainedError" "")).errorType
      = ErrorType.generic ∧
    (classifyStartError (StartError.mk "SomeUnknownError" "boom")).errorType
      = ErrorType.generic := by
  refine ⟨?_, ?_⟩ <;> rfl

/-- C6 (amended): every start failure is surfaced as one of the four kinds
`denied`, `busy`, `not-found`, `generic`; `OverconstrainedError` (with a
message matching no earlier branch) is surfaced as kind `generic`, though
with its own guidance text distinct from the catch-all default. -/
theorem classifyStartError_taxonomy (e : StartError)
    (hn : e.name = "OverconstrainedError")
    (h1 : strIncludes e.message "Permission" = false)
    (h2 : strIncludes e.message "Could not start" = false)
    (h3 : strIncludes e.message "in use" = false)
    (h4 : strIncludes e.message "not found" = false) :
    (∀ e₂ : StartError,
      (classifyStartError e₂).errorType = ErrorType.denied ∨
      (classifyStartError e₂).errorType = ErrorType.busy ∨
      (classifyStartError e₂).errorType = ErrorType.notFound ∨
      (classifyStartError e₂).errorType = ErrorType.generic) ∧
    (classifyStartError e).errorType = ErrorType.generic ∧
    (classifyStartError e).errorMessage
      = "Camera settings not supported. Please try again." ∧
    (classifyStartError e).errorMessage
      ≠ "Failed to start camera. Please try again." := by
  refine ⟨?_, ?_⟩
  · intro e₂
    cases h : (classifyStartError e₂).errorType <;> simp
  · rw [classifyStartError]
    simp [hn, h1, h2, h3, h4]

/-- Witness for `classifyStartError_taxonomy` at the concrete
`OverconstrainedError` with an empty message. -/
theorem classifyStartError_taxonomy_witness :
    (StartError.mk "OverconstrainedError" "").name = "OverconstrainedError" ∧
    strIncludes (StartError.mk "OverconstrainedError" "").message "Permission"
      = false ∧
    strIncludes (StartError.mk "OverconstrainedError" "").message
      "Could not start" = false ∧
    strIncludes (StartError.mk "OverconstrainedError" "").message "in use"
      = false ∧
    strIncludes (StartError.mk "OverconstrainedError" "").message "not found"
      = false ∧
    ((∀ e₂ : StartError,
        (classifyStartError e₂).errorType = ErrorType.denied ∨
        (classifyStartError e₂).errorType = ErrorType.busy ∨
        (classifyStartError e₂).errorType = ErrorType.notFound ∨
        (classifyStartError e₂).errorType = ErrorType.generic) ∧
      (classifyStartError (StartError.mk "OverconstrainedError" "")).errorType
        = ErrorType.generic ∧
      (classifyStartError (StartError.mk "OverconstrainedError" "")).errorMessage
        = "Camera settings not supported. Please try again." ∧
      (classifyStartError (StartError.mk "OverconstrainedError" "")).errorMessage
        ≠ "Failed to start camera. Please try again.") :=
  ⟨rfl, rfl, rfl, rfl, rfl,
   classifyStartError_taxonomy _ rfl rfl rfl rfl rfl⟩

/-!
## Retry backoff (`BarcodeScanner.tsx`, `handleRetry`)
-/

/-- The backoff delay of `handleRetry` (BarcodeScanner.tsx line 404):
`Math.min(500 + retryCount * 300, 2000)` milliseconds. -/
def retryDelayMs (attempt : Nat) : Nat := min (500 + attempt * 300) 2000

/-- `handleRetry` (lines 397-409): increments `retryCountRef`, then sleeps
`retryDelayMs` of the new counter before re-requesting permission.
Returns the new counter and the delay slept. -/
def handleRetry (retryCount : Nat) : Nat × Nat :=
  (retryCount + 1, retryDelayMs (retryCount + 1))

/-- C9: the backoff delay for any attempt count equals
`min(500 + attempt*300, 2000)` ms, is monotone in the attempt count, never
exceeds 2000 ms, and `handleRetry` applies it at the incremented count. -/
theorem retry_backoff (n m : Nat) (hnm : n ≤ m) :
    retryDelayMs n = min (500 + n * 300) 2000 ∧
    retryDelayMs n ≤ 2000 ∧
    retryDelayMs n ≤ retryDelayMs m ∧
    (handleRetry n).2 = min (500 + (n + 1) * 300) 2000 := by
  refine ⟨rfl, Nat.min_le_right _ _, ?_, rfl⟩
  have h : 500 + n * 300 ≤ 500 + m * 300 := by omega
  exact min_le_min h (Nat.le_refl 2000)

/-- Witness for `retry_backoff` at attempts 1 and 5. -/
theorem retry_backoff_witness :
    1 ≤ 5 ∧
    (retryDelayMs 1 = min (500 + 1 * 300) 2000 ∧
     retryDelayMs 1 ≤ 2000 ∧
     retryDelayMs 1 ≤ retryDelayMs 5 ∧
     (handleRetry 1).2 = min (500 + (1 + 1) * 300) 2000) :=
  ⟨by decide, retry_backoff 1 5 (by decide)⟩

/-!
## Torch control (`BarcodeScanner.tsx`, `toggleTorch`)

`toggleTorch` (lines 143-155) is guarded by `videoTrackRef.current` and the
cached `torchSupported` flag; when it proceeds it calls
`track.applyConstraints({advanced: [{torch: !torchEnabled}]})` and flips
`torchEnabled`.  The flag is set by `updateTrackDebugInfo` (lines 122-125)
when the track capabilities contain a `torch` field — and set only to
`true`: `stopScanner` (lines 158-178) resets `torchEnabled` and
`videoTrackRef` but never resets `torchSupported`.
-/

/-- The active video track as the torch logic sees it: whether
`track.getCapabilities()` reports a `torch` field. -/
structure TrackInfo where
  torchInCapabilities : Bool
deriving DecidableEq, Repr

/-- The torch-related component cells (`videoTrackRef`, `torchSupported`,
`torchEnabled`) plus the trace of torch booleans passed to
`applyConstraints` on the track. -/
structure TorchState where
  videoTrack : Option TrackInfo
  torchSupported : Bool
  torchEnabled : Bool
  appliedTorchConstraints : List Bool
deriving DecidableEq, Repr

/-- Fresh component state: no track, `torchSupported = false`,
`torchEnabled = false`, no constraint calls. -/
def torchInit : TorchState := ⟨none, false, false, []⟩

/-- `toggleTorch` (BarcodeScanner.tsx lines 143-155). -/
def toggleTorch (st : TorchState) : TorchState :=
  match st.videoTrack with
  | none => st
  | some _ =>
    if st.torchSupported then
      { st with
        torchEnabled := !st.torchEnabled,
        appliedTorchConstraints := st.appliedTorchConstraints ++ [!st.torchEnabled] }
    else st

/-- Session operations touching the torch cells. -/
inductive TorchOp
  | startSession (t : TrackInfo)
  | stopSession
  | toggle
deriving DecidableEq, Repr

/-- Effect of each operation on the torch cells.  `startSession` models a
successful `startScanner` (lines 255-278 set `videoTrackRef` and run
`updateTrackDebugInfo`, which sets `torchSupported` to true when the track
capabilities contain `torch` and otherwise leaves it as it was);
`stopSession` models `stopScanner` (lines 158-178: `torchEnabled := false`,
`videoTrackRef := null`, `torchSupported` untouched). -/
def torchStep (st : TorchState) : TorchOp → TorchState
  | TorchOp.startSession t =>
    { st with
      videoTrack := some t,
      torchSupported := st.torchSupported || t.torchInCapabilities }
  | TorchOp.stopSession => { st with torchEnabled := false, videoTrack := none }
  | TorchOp.toggle => toggleTorch st

/-- Run a sequence of session operations from a state. -/
def runTorchOps (st : TorchState) : List TorchOp → TorchState
  | [] => st
  | op :: rest => runTorchOps (torchStep st op) rest

/-- The state after a torch-capable session, a stop, and a new session on a
track without torch capability: `torchSupported` is stale. -/
def staleTorchRun : TorchState :=
  runTorchOps torchInit
    [TorchOp.startSession ⟨true⟩, TorchOp.stopSession,
     TorchOp.startSession ⟨false⟩]

/-- Counterexample to C8: a reachable state whose active track reports no
torch capability, yet `toggleTorch` is not a no-op — it flips
`torchEnabled` and makes a constraint-application call — because
`torchSupported` was cached from an earlier torch-capable session and is
never reset by `stopScanner`. -/
theorem toggleTorch_stale_flag_counterexample :
    staleTorchRun.videoTrack = some ⟨false⟩ ∧
    (toggleTorch staleTorchRun).torchEnabled = true ∧
    (toggleTorch staleTorchRun).appliedTorchConstraints = [true] ∧
    toggleTorch staleTorchRun ≠ staleTorchRun := by
  refine ⟨rfl, rfl, rfl, ?_⟩
  decide

/-- C8 (amended): `toggleTorch` is a no-op — state unchanged, no
constraint application — whenever no track is active or the cached
`torchSupported` flag is false; the flag is false throughout any history
in which no torch-capable track was ever started (it is only ever set by
observing a torch capability, and is not reset on stop).  When a track is
active and the flag is set, `toggleTorch` applies the inverse of the
current torch boolean as a track constraint and updates the state. -/
theorem toggleTorch_guard (st : TorchState) :
    (st.videoTrack = none ∨ st.torchSupported = false → toggleTorch st = st) ∧
    (∀ t, st.videoTrack = some t → st.torchSupported = true →
      (toggleTorch st).torchEnabled = !st.torchEnabled ∧
      (toggleTorch st).appliedTorchConstraints
        = st.appliedTorchConstraints ++ [!st.torchEnabled]) ∧
    (∀ ops : List TorchOp,
      (∀ t, TorchOp.startSession t ∈ ops → t.torchInCapabilities = false) →
      (runTorchOps torchInit ops).torchSupported = false ∧
      (runTorchOps torchInit ops).appliedTorchConstraints = []) := by
  refine ⟨?_, ?_, ?_⟩
  · intro h
    rcases h with h | h
    · rw [toggleTorch, h]
    · cases hv : st.videoTrack with
      | none => rw [toggleTorch, hv]
      | some t => rw [toggleTorch, hv]; simp [h]
  · intro t hv hs
    rw [toggleTorch, hv]
    simp [hs]
  · have key : ∀ (ops : List TorchOp) (st : TorchState),
        st.torchSupported = false → st.appliedTorchConstraints = [] →
        (∀ t, TorchOp.startSession t ∈ ops → t.torchInCapabilities = false) →
        (runTorchOps st ops).torchSupported = false ∧
        (runTorchOps st ops).appliedTorchConstraints = [] := by
      intro ops
      induction ops with
      | nil => intro st h1 h2 _; exact ⟨h1, h2⟩
      | cons op rest ih =>
        intro st h1 h2 hops
        rw [runTorchOps]
        apply ih
        · cases op with
          | startSession t =>
            have := hops t (by simp)
            simp [torchStep, h1, this]
          | stopSession => simp [torchStep, h1]
          | toggle =>
            cases hv : st.videoTrack with
            | none => simp [torchStep, toggleTorch, hv, h1]
            | some t => simp [torchStep, toggleTorch, hv, h1]
        · cases op with
          | startSession t => simp [torchStep, h2]
          | stopSession => simp [torchStep, h2]
          | toggle =>
            cases hv : st.videoTrack with
            | none => simp [torchStep, toggleTorch, hv, h2]
            | some t => simp [torchStep, toggleTorch, hv, h1, h2]
        · intro t ht
          exact hops t (by simp [ht])
    intro ops hops
    exact key ops torchInit rfl rfl hops

/-- Witness for `toggleTorch_guard`: the fresh state is a no-op case, and
a torch-capable active session toggles the torch on with one constraint
call. -/
theorem toggleTorch_guard_witness :
    toggleTorch torchInit = torchInit ∧
    (toggleTorch (TorchState.mk (some ⟨true⟩) true false [])).torchEnabled
      = true ∧
    (runTorchOps torchInit [TorchOp.startSession ⟨false⟩,
        TorchOp.toggle]).appliedTorchConstraints = [] :=
  ⟨(toggleTorch_guard torchInit).1 (Or.inr rfl),
   ((toggleTorch_guard _).2.1 ⟨true⟩ rfl rfl).1,
   ((toggleTorch_guard torchInit).2.2
      [TorchOp.startSession ⟨false⟩, TorchOp.toggle]
      (by intro t ht; simp at ht; rw [ht])).2⟩

/-!
## Sync Coordinator re-entrancy (`useOfflineSync.ts`, `isSyncing`)

`syncPendingDoses` checks and sets `isSyncing.current` synchronously
(lines 15-17, no await between guard and set) before its first suspension
point (`await getPendingDoses()`).  The system below interleaves two
trigger invocations (`false` = first trigger, `true` = second) at the
code's suspension points, recording every queue access with the trigger
that performed it.
-/

/-- Program position of one `syncPendingDoses` invocation.  `flagSet` is
the point after the synchronous guard/flag block (lines 15-17), before the
`await getPendingDoses()`; `draining l` holds the unprocessed remainder of
the snapshot; `dropped` is the early return at the guard; `finished`
covers both the empty-snapshot return (lines 22-25) and the `finally`
block (line 71), each of which clears the flag. -/
inductive SyncPhase
  | notTriggered
  | flagSet
  | draining (remaining : List PendingDose)
  | dropped
  | finished
deriving DecidableEq, Repr

/-- A queue access performed during a drain, tagged with the trigger that
performed it. -/
inductive QueueAccess
  | enumerate (tid : Bool)
  | removeId (tid : Bool) (i : String)
deriving DecidableEq, Repr

/-- The trigger a queue access belongs to. -/
def QueueAccess.tid : QueueAccess → Bool
  | QueueAccess.enumerate t => t
  | QueueAccess.removeId t _ => t

/-- Shared state plus the two triggers' positions and the access trace. -/
structure SyncSys where
  isSyncing : Bool
  store : Store
  t1 : SyncPhase
  t2 : SyncPhase
  trace : List QueueAccess
deriving DecidableEq, Repr

/-- Initial state: flag clear, queue `s`, neither trigger has run. -/
def initSyncSys (s : Store) : SyncSys :=
  ⟨false, s, SyncPhase.notTriggered, SyncPhase.notTriggered, []⟩

/-- Position of a trigger. -/
def phaseOf (sys : SyncSys) (tid : Bool) : SyncPhase :=
  if tid then sys.t2 else sys.t1

/-- Replace a trigger's position. -/
def setPhase (sys : SyncSys) (tid : Bool) (p : SyncPhase) : SyncSys :=
  if tid then { sys with t2 := p } else { sys with t1 := p }

/-- One micro-step of trigger `tid`, at the granularity of the code's
suspension points.  The guard and flag-set are one atomic step (they are
synchronous in the source); enumeration, each remote write + removal, and
the flag-clearing return are separate steps. -/
def syncStep (wOk : PendingDose → Bool) (sys : SyncSys) (tid : Bool) : SyncSys :=
  match phaseOf sys tid with
  | SyncPhase.notTriggered =>
    if sys.isSyncing then setPhase sys tid SyncPhase.dropped
    else setPhase { sys with isSyncing := true } tid SyncPhase.flagSet
  | SyncPhase.flagSet =>
    setPhase { sys with trace := sys.trace ++ [QueueAccess.enumerate tid] }
      tid (SyncPhase.draining (getPendingDoses sys.store))
  | SyncPhase.draining [] =>
    setPhase { sys with isSyncing := false } tid SyncPhase.finished
  | SyncPhase.draining (d :: rest) =>
    if wOk d then
      setPhase { sys with
          store := removePendingDose sys.store d.id,
          trace := sys.trace ++ [QueueAccess.removeId tid d.id] }
        tid (SyncPhase.draining rest)
    else setPhase sys tid (SyncPhase.draining rest)
  | SyncPhase.dropped => sys
  | SyncPhase.finished => sys

/-- Run a schedule (list of trigger choices) from a state. -/
def runSyncSched (wOk : PendingDose → Bool) (sys : SyncSys) : List Bool → SyncSys
  | [] => sys
  | tid :: rest => runSyncSched wOk (syncStep wOk sys tid) rest

/-- Is a trigger's drain pass in flight (between flag-set and
flag-clear)? -/
def syncActive : SyncPhase → Bool
  | SyncPhase.flagSet => true
  | SyncPhase.draining _ => true
  | _ => false

/-- The `isSyncing` flag is set exactly while some pass is in flight, and
never are two passes in flight. -/
def syncInv (sys : SyncSys) : Prop :=
  sys.isSyncing = (syncActive sys.t1 || syncActive sys.t2) ∧
  ¬(syncActive sys.t1 = true ∧ syncActive sys.t2 = true)

theorem syncStep_inv (wOk : PendingDose → Bool) (sys : SyncSys) (tid : Bool)
    (h : syncInv sys) : syncInv (syncStep wOk sys tid) := by
  obtain ⟨hflag, hmutex⟩ := h
  cases tid with
  | false =>
    rw [syncStep]
    rw [show phaseOf sys false = sys.t1 from rfl]
    cases h1 : sys.t1 with
    | notTriggered =>
      by_cases hs : sys.isSyncing = true
      · rw [if_pos hs]
        rw [hs, h1] at hflag
        refine ⟨?_, ?_⟩ <;>
          simp_all [setPhase, syncInv, syncActive]
      · rw [if_neg hs]
        have hs' : sys.isSyncing = false := Bool.eq_false_iff.mpr hs
        rw [hs', h1] at hflag
        refine ⟨?_, ?_⟩ <;>
          simp_all [setPhase, syncInv, syncActive]
    | flagSet =>
      rw [h1] at hflag hmutex
      refine ⟨?_, ?_⟩ <;> simp_all [setPhase, syncActive]
    | draining l =>
      cases l with
      | nil =>
        rw [h1] at hflag hmutex
        refine ⟨?_, ?_⟩ <;> simp_all [setPhase, syncActive]
      | cons d rest =>
        rw [h1] at hflag hmutex
        by_cases hw : wOk d = true
        · refine ⟨?_, ?_⟩ <;> simp_all [setPhase, syncActive, hw]
        · refine ⟨?_, ?_⟩ <;> simp_all [setPhase, syncActive, hw]
    | dropped => exact ⟨hflag, hmutex⟩
    | finished => exact ⟨hflag, hmutex⟩
  | true =>
    rw [syncStep]
    rw [show phaseOf sys true = sys.t2 from rfl]
    cases h2 : sys.t2 with
    | notTriggered =>
      by_cases hs : sys.isSyncing = true
      · rw [if_pos hs]
        rw [hs, h2] at hflag
        refine ⟨?_, ?_⟩ <;>
          simp_all [setPhase, syncInv, syncActive]
      · rw [if_neg hs]
        have hs' : sys.isSyncing = false := Bool.eq_false_iff.mpr hs
        rw [hs', h2] at hflag
        refine ⟨?_, ?_⟩ <;>
          simp_all [setPhase, syncInv, syncActive]
    | flagSet =>
      rw [h2] at hflag hmutex
      refine ⟨?_, ?_⟩ <;> simp_all [setPhase, syncActive]
    | draining l =>
      cases l with
      | nil =>
        rw [h2] at hflag hmutex
        refine ⟨?_, ?_⟩ <;> simp_all [setPhase, syncActive]
      | cons d rest =>
        rw [h2] at hflag hmutex
        by_cases hw : wOk d = true
        · refine ⟨?_, ?_⟩ <;> simp_all [setPhase, syncActive, hw]
        · refine ⟨?_, ?_⟩ <;> simp_all [setPhase, syncActive, hw]
    | dropped => exact ⟨hflag, hmutex⟩
    | finished => exact ⟨hflag, hmutex⟩

theorem runSyncSched_inv (wOk : PendingDose → Bool) (sched : List Bool)
    (sys : SyncSys) (h : syncInv sys) :
    syncInv (runSyncSched wOk sys sched) := by
  induction sched generalizing sys with
  | nil => exact h
  | cons tid rest ih => exact ih _ (syncStep_inv wOk sys tid h)

theorem runSyncSched_append (wOk : PendingDose → Bool) (sys : SyncSys)
    (a b : List Bool) :
    runSyncSched wOk sys (a ++ b) = runSyncSched wOk (runSyncSched wOk sys a) b := by
  induction a generalizing sys with
  | nil => rfl
  | cons tid rest ih => rw [List.cons_append, runSyncSched, runSyncSched, ih]

theorem syncStep_t1_t2 (wOk : PendingDose → Bool) (sys : SyncSys) :
    (syncStep wOk sys false).t2 = sys.t2 := by
  rw [syncStep]
  rw [show phaseOf sys false = sys.t1 from rfl]
  cases sys.t1 with
  | notTriggered => by_cases hs : sys.isSyncing = true <;> simp [hs, setPhase]
  | flagSet => simp [setPhase]
  | draining l =>
    cases l with
    | nil => simp [setPhase]
    | cons d rest => by_cases hw : wOk d = true <;> simp [hw, setPhase]
  | dropped => rfl
  | finished => rfl

theorem syncStep_t1_trace (wOk : PendingDose → Bool) (sys : SyncSys) :
    ∀ op ∈ (syncStep wOk sys false).trace,
      op ∈ sys.trace ∨ QueueAccess.tid op = false := by
  intro op hop
  rw [syncStep] at hop
  rw [show phaseOf sys false = sys.t1 from rfl] at hop
  cases h1 : sys.t1 with
  | notTriggered =>
    rw [h1] at hop
    by_cases hs : sys.isSyncing = true <;> simp_all [setPhase]
  | flagSet =>
    rw [h1] at hop
    simp only [setPhase, if_neg Bool.false_ne_true, List.mem_append,
      List.mem_singleton] at hop
    rcases hop with h | h
    · exact Or.inl h
    · exact Or.inr (by rw [h]; rfl)
  | draining l =>
    cases l with
    | nil => rw [h1] at hop; simp_all [setPhase]
    | cons d rest =>
      rw [h1] at hop
      by_cases hw : wOk d = true
      · simp only [hw, if_pos, setPhase, if_neg Bool.false_ne_true,
          List.mem_append, List.mem_singleton] at hop
        rcases hop with h | h
        · exact Or.inl h
        · exact Or.inr (by rw [h]; rfl)
      · simp_all [setPhase]
  | dropped => rw [h1] at hop; exact Or.inl hop
  | finished => rw [h1] at hop; exact Or.inl hop

theorem syncStep_t2_dropped (wOk : PendingDose → Bool) (sys : SyncSys)
    (h : sys.t2 = SyncPhase.dropped) : syncStep wOk sys true = sys := by
  rw [syncStep, show phaseOf sys true = sys.t2 from rfl, h]

theorem runSyncSched_dropped (wOk : PendingDose → Bool) (sched : List Bool) :
    ∀ sys : SyncSys, sys.t2 = SyncPhase.dropped →
      (∀ op ∈ sys.trace, QueueAccess.tid op = false) →
      (runSyncSched wOk sys sched).t2 = SyncPhase.dropped ∧
      ∀ op ∈ (runSyncSched wOk sys sched).trace, QueueAccess.tid op = false := by
  induction sched with
  | nil => exact fun sys h2 htr => ⟨h2, htr⟩
  | cons tid rest ih =>
    intro sys h2 htr
    cases tid with
    | false =>
      rw [runSyncSched]
      apply ih
      · rw [syncStep_t1_t2]; exact h2
      · intro op hop
        rcases syncStep_t1_trace wOk sys op hop with h | h
        · exact htr op h
        · exact h
    | true =>
      rw [runSyncSched, syncStep_t2_dropped wOk sys h2]
      exact ih sys h2 htr

theorem runSyncSched_onlyT1 (wOk : PendingDose → Bool) (sched : List Bool) :
    ∀ sys : SyncSys, (∀ b ∈ sched, b = false) →
      (runSyncSched wOk sys sched).t2 = sys.t2 ∧
      ((∀ op ∈ sys.trace, QueueAccess.tid op = false) →
        ∀ op ∈ (runSyncSched wOk sys sched).trace, QueueAccess.tid op = false) := by
  induction sched with
  | nil => exact fun sys _ => ⟨rfl, fun h => h⟩
  | cons tid rest ih =>
    intro sys hb
    have htid : tid = false := hb tid (by simp)
    subst htid
    rw [runSyncSched]
    have hrec := ih (syncStep wOk sys false) (fun b hbmem => hb b (by simp [hbmem]))
    refine ⟨by rw [hrec.1, syncStep_t1_t2], ?_⟩
    intro htr
    apply hrec.2
    intro op hop
    rcases syncStep_t1_trace wOk sys op hop with h | h
    · exact htr op h
    · exact h

/-- C3: at most one Sync Coordinator drain pass is ever in flight.  If a
second trigger (`true`) arrives at any point where the first trigger's
drain is in flight, the second trigger returns immediately at the guard —
its step only marks it dropped, changing neither the queue, the flag, nor
the trace — and however the run continues, the second trigger never
enumerates or mutates the queue; moreover at every point of the run at
most one pass is in flight. -/
theorem sync_second_trigger_dropped (wOk : PendingDose → Bool) (s : Store)
    (pre post : List Bool)
    (hpre : ∀ b ∈ pre, b = false)
    (hact : syncActive (runSyncSched wOk (initSyncSys s) pre).t1 = true) :
    runSyncSched wOk (initSyncSys s) (pre ++ [true])
      = setPhase (runSyncSched wOk (initSyncSys s) pre) true SyncPhase.dropped ∧
    (runSyncSched wOk (initSyncSys s) (pre ++ true :: post)).t2
      = SyncPhase.dropped ∧
    (∀ op ∈ (runSyncSched wOk (initSyncSys s) (pre ++ true :: post)).trace,
      QueueAccess.tid op = false) ∧
    (∀ p q : List Bool, pre ++ true :: post = p ++ q →
      ¬(syncActive (runSyncSched wOk (initSyncSys s) p).t1 = true ∧
        syncActive (runSyncSched wOk (initSyncSys s) p).t2 = true)) := by
  have hinv0 : syncInv (initSyncSys s) := ⟨rfl, by simp [initSyncSys, syncActive]⟩
  have hinv := runSyncSched_inv wOk pre (initSyncSys s) hinv0
  have honly := runSyncSched_onlyT1 wOk pre (initSyncSys s) hpre
  have hmid2 : (runSyncSched wOk (initSyncSys s) pre).t2 = SyncPhase.notTriggered :=
    honly.1
  have hmidtr : ∀ op ∈ (runSyncSched wOk (initSyncSys s) pre).trace,
      QueueAccess.tid op = false :=
    honly.2 (fun op hop => absurd hop (by simp [initSyncSys]))
  have hflagTrue : (runSyncSched wOk (initSyncSys s) pre).isSyncing = true := by
    rw [hinv.1, hact, Bool.true_or]
  have hstep : syncStep wOk (runSyncSched wOk (initSyncSys s) pre) true
      = setPhase (runSyncSched wOk (initSyncSys s) pre) true SyncPhase.dropped := by
    rw [syncStep, show ∀ u : SyncSys, phaseOf u true = u.t2 from fun u => rfl, hmid2]
    rw [if_pos hflagTrue]
  have hsplit : pre ++ true :: post = (pre ++ [true]) ++ post := by
    rw [List.append_assoc]; rfl
  have hone : runSyncSched wOk (initSyncSys s) (pre ++ [true])
      = setPhase (runSyncSched wOk (initSyncSys s) pre) true SyncPhase.dropped := by
    rw [runSyncSched_append, runSyncSched, runSyncSched, hstep]
  have habsorb := runSyncSched_dropped wOk post
    (setPhase (runSyncSched wOk (initSyncSys s) pre) true SyncPhase.dropped)
    rfl hmidtr
  refine ⟨hone, ?_, ?_, ?_⟩
  · rw [hsplit, runSyncSched_append, hone]
    exact habsorb.1
  · rw [hsplit, runSyncSched_append, hone]
    exact habsorb.2
  · intro p q _
    exact (runSyncSched_inv wOk p (initSyncSys s) hinv0).2

/-- Witness for `sync_second_trigger_dropped`: a one-record queue, the
first trigger mid-drain (flag set) when the second trigger arrives. -/
theorem sync_second_trigger_dropped_witness :
    (∀ b ∈ [false], b = false) ∧
    syncActive (runSyncSched (fun _ => true)
      (initSyncSys [PendingDose.mk "a" "u" "m" true "t" "t" none none])
      [false]).t1 = true ∧
    (runSyncSched (fun _ => true)
        (initSyncSys [PendingDose.mk "a" "u" "m" true "t" "t" none none])
        ([false] ++ [true])
      = setPhase (runSyncSched (fun _ => true)
          (initSyncSys [PendingDose.mk "a" "u" "m" true "t" "t" none none])
          [false]) true SyncPhase.dropped ∧
    (runSyncSched (fun _ => true)
        (initSyncSys [PendingDose.mk "a" "u" "m" true "t" "t" none none])
        ([false] ++ true :: [false, false, false, false])).t2
      = SyncPhase.dropped ∧
    (∀ op ∈ (runSyncSched (fun _ => true)
        (initSyncSys [PendingDose.mk "a" "u" "m" true "t" "t" none none])
        ([false] ++ true :: [false, false, false, false])).trace,
      QueueAccess.tid op = false) ∧
    (∀ p q : List Bool,
      [false] ++ true :: [false, false, false, false] = p ++ q →
      ¬(syncActive (runSyncSched (fun _ => true)
          (initSyncSys [PendingDose.mk "a" "u" "m" true "t" "t" none none])
          p).t1 = true ∧
        syncActive (runSyncSched (fun _ => true)
          (initSyncSys [PendingDose.mk "a" "u" "m" true "t" "t" none none])
          p).t2 = true))) :=
  ⟨by decide, by decide,
   sync_second_trigger_dropped (fun _ => true) _ [false]
     [false, false, false, false] (by decide) (by decide)⟩

/-!
## Scanner start re-entrancy (`BarcodeScanner.tsx`, `startScanner`)

`startScanner` (lines 181-315) checks `isStartingRef.current || scannerRef.current`
and sets `isStartingRef.current = true` synchronously (lines 183-185, no
await between guard and set).  Its suspension points: the defensive
cleanup + paint waits (before the engine is created), then
`await html5QrCode.start(...)` (the camera acquisition), after which
`isStartingRef.current = false` (line 280).  `scannerRef.current` is
assigned (line 215) before the `start` await.  Two invocations of
`startScanner` on one controller instance (`false` = first, `true` =
second) are interleaved at those points; the model counts camera
acquisitions. -/

/-- Program position of one `startScanner` invocation (success path). -/
inductive StartPhase
  | notCalled
  | cleaningUp
  | engineReady
  | acquired
  | returned
  | completed
deriving DecidableEq, Repr

/-- Shared controller state (`isStartingRef`, `scannerRef` non-null, the
number of camera acquisitions performed) plus both invocations'
positions. -/
structure ScannerSys where
  isStarting : Bool
  scanner : Bool
  acquisitions : Nat
  c1 : StartPhase
  c2 : StartPhase
deriving DecidableEq, Repr

/-- Fresh controller: no flags, no engine, no acquisitions, neither call
made. -/
def initScannerSys : ScannerSys :=
  ⟨false, false, 0, StartPhase.notCalled, StartPhase.notCalled⟩

/-- Position of an invocation. -/
def callPhaseOf (sys : ScannerSys) (tid : Bool) : StartPhase :=
  if tid then sys.c2 else sys.c1

/-- Replace an invocation's position. -/
def setCallPhase (sys : ScannerSys) (tid : Bool) (p : StartPhase) : ScannerSys :=
  if tid then { sys with c2 := p } else { sys with c1 := p }

/-- One micro-step of invocation `tid`: the synchronous guard + flag set
(lines 182-185) is one atomic step; engine creation + `scannerRef`
assignment, the camera acquisition (`await html5QrCode.start`), and the
final flag clear are separate steps. -/
def scannerStep (sys : ScannerSys) (tid : Bool) : ScannerSys :=
  match callPhaseOf sys tid with
  | StartPhase.notCalled =>
    if sys.isStarting || sys.scanner then setCallPhase sys tid StartPhase.returned
    else setCallPhase { sys with isStarting := true } tid StartPhase.cleaningUp
  | StartPhase.cleaningUp =>
    setCallPhase { sys with scanner := true } tid StartPhase.engineReady
  | StartPhase.engineReady =>
    setCallPhase { sys with acquisitions := sys.acquisitions + 1 }
      tid StartPhase.acquired
  | StartPhase.acquired =>
    setCallPhase { sys with isStarting := false } tid StartPhase.completed
  | StartPhase.returned => sys
  | StartPhase.completed => sys

/-- Run a schedule of invocation choices. -/
def runScannerSched (sys : ScannerSys) : List Bool → ScannerSys
  | [] => sys
  | tid :: rest => runScannerSched (scannerStep sys tid) rest

/-- Has an invocation passed the guard? -/
def startPassed : StartPhase → Bool
  | StartPhase.notCalled => false
  | StartPhase.cleaningUp => true
  | StartPhase.engineReady => true
  | StartPhase.acquired => true
  | StartPhase.returned => false
  | StartPhase.completed => true

/-- Does an invocation's position imply `isStartingRef` set? -/
def startFlagOf : StartPhase → Bool
  | StartPhase.notCalled => false
  | StartPhase.cleaningUp => true
  | StartPhase.engineReady => true
  | StartPhase.acquired => true
  | StartPhase.returned => false
  | StartPhase.completed => false

/-- Does an invocation's position imply `scannerRef` assigned? -/
def startScannerOf : StartPhase → Bool
  | StartPhase.notCalled => false
  | StartPhase.cleaningUp => false
  | StartPhase.engineReady => true
  | StartPhase.acquired => true
  | StartPhase.returned => false
  | StartPhase.completed => true

/-- Camera acquisitions an invocation has performed. -/
def startAcqOf : StartPhase → Nat
  | StartPhase.notCalled => 0
  | StartPhase.cleaningUp => 0
  | StartPhase.engineReady => 0
  | StartPhase.acquired => 1
  | StartPhase.returned => 0
  | StartPhase.completed => 1

/-- The shared cells are exactly determined by the two positions, and the
guard admits at most one invocation. -/
def scannerInv (sys : ScannerSys) : Prop :=
  sys.isStarting = (startFlagOf sys.c1 || startFlagOf sys.c2) ∧
  sys.scanner = (startScannerOf sys.c1 || startScannerOf sys.c2) ∧
  sys.acquisitions = startAcqOf sys.c1 + startAcqOf sys.c2 ∧
  ¬(startPassed sys.c1 = true ∧ startPassed sys.c2 = true)

theorem scannerStep_inv (sys : ScannerSys) (tid : Bool)
    (h : scannerInv sys) : scannerInv (scannerStep sys tid) := by
  obtain ⟨hflag, hscan, hacq, hmutex⟩ := h
  cases tid with
  | false =>
    rw [scannerStep]
    rw [show callPhaseOf sys false = sys.c1 from rfl]
    cases h1 : sys.c1 with
    | notCalled =>
      rw [h1] at hflag hscan hacq hmutex
      by_cases hg : (sys.isStarting || sys.scanner) = true
      · rw [if_pos hg]
        refine ⟨?_, ?_, ?_, ?_⟩
        · simpa [setCallPhase, startFlagOf] using hflag
        · simpa [setCallPhase, startScannerOf] using hscan
        · simpa [setCallPhase, startAcqOf] using hacq
        · simp [setCallPhase, startPassed]
      · rw [if_neg hg]
        have hg2 : sys.isStarting = false ∧ sys.scanner = false := by
          simp only [Bool.or_eq_true] at hg; push_neg at hg
          exact ⟨Bool.eq_false_iff.mpr hg.1, Bool.eq_false_iff.mpr hg.2⟩
        have hflagF : (startFlagOf StartPhase.notCalled || startFlagOf sys.c2) = false :=
          hflag.symm.trans hg2.1
        have hscanF : (startScannerOf StartPhase.notCalled || startScannerOf sys.c2) = false :=
          hscan.symm.trans hg2.2
        have hof : startFlagOf sys.c2 = false := by
          simpa [startFlagOf] using hflagF
        have hos : startScannerOf sys.c2 = false := by
          simpa [startScannerOf] using hscanF
        have hop : startPassed sys.c2 = false := by
          cases ho : sys.c2
          · rfl
          · rw [ho] at hof; exact absurd hof (by simp [startFlagOf])
          · rw [ho] at hof; exact absurd hof (by simp [startFlagOf])
          · rw [ho] at hof; exact absurd hof (by simp [startFlagOf])
          · rfl
          · rw [ho] at hos; exact absurd hos (by simp [startScannerOf])
        refine ⟨?_, ?_, ?_, ?_⟩
        · simp [setCallPhase, startFlagOf]
        · show sys.scanner
            = (startScannerOf StartPhase.cleaningUp || startScannerOf sys.c2)
          rw [hg2.2, hos]
          rfl
        · simpa [setCallPhase, startAcqOf] using hacq
        · show ¬(startPassed StartPhase.cleaningUp = true ∧ startPassed sys.c2 = true)
          intro hcon
          rw [hop] at hcon
          exact Bool.false_ne_true hcon.2
    | cleaningUp =>
      rw [h1] at hflag hscan hacq hmutex
      refine ⟨?_, ?_, ?_, ?_⟩
      · simpa [setCallPhase, startFlagOf] using hflag
      · simp [setCallPhase, startScannerOf]
      · simpa [setCallPhase, startAcqOf] using hacq
      · simpa [setCallPhase, startPassed] using hmutex
    | engineReady =>
      rw [h1] at hflag hscan hacq hmutex
      refine ⟨?_, ?_, ?_, ?_⟩
      · simpa [setCallPhase, startFlagOf] using hflag
      · simpa [setCallPhase, startScannerOf] using hscan
      · simp [setCallPhase, startAcqOf, hacq]
        omega
      · simpa [setCallPhase, startPassed] using hmutex
    | acquired =>
      rw [h1] at hflag hscan hacq hmutex
      have hop : startPassed sys.c2 = false := by
        simp only [startPassed] at hmutex
        simp only [true_and, and_true] at hmutex
        exact Bool.eq_false_iff.mpr hmutex
      have hof : startFlagOf sys.c2 = false := by
        cases ho : sys.c2
        · rfl
        · rw [ho] at hop; exact absurd hop (by simp [startPassed])
        · rw [ho] at hop; exact absurd hop (by simp [startPassed])
        · rw [ho] at hop; exact absurd hop (by simp [startPassed])
        · rfl
        · rfl
      refine ⟨?_, ?_, ?_, ?_⟩
      · show false = (startFlagOf StartPhase.completed || startFlagOf sys.c2)
        rw [hof]
        rfl
      · simpa [setCallPhase, startScannerOf] using hscan
      · simpa [setCallPhase, startAcqOf] using hacq
      · show ¬(startPassed StartPhase.completed = true ∧ startPassed sys.c2 = true)
        intro hcon
        rw [hop] at hcon
        exact Bool.false_ne_true hcon.2
    | returned => exact ⟨hflag, hscan, hacq, hmutex⟩
    | completed => exact ⟨hflag, hscan, hacq, hmutex⟩
  | true =>
    rw [scannerStep]
    rw [show callPhaseOf sys true = sys.c2 from rfl]
    cases h2 : sys.c2 with
    | notCalled =>
      rw [h2] at hflag hscan hacq hmutex
      by_cases hg : (sys.isStarting || sys.scanner) = true
      · rw [if_pos hg]
        refine ⟨?_, ?_, ?_, ?_⟩
        · simpa [setCallPhase, startFlagOf] using hflag
        · simpa [setCallPhase, startScannerOf] using hscan
        · simpa [setCallPhase, startAcqOf] using hacq
        · simp [setCallPhase, startPassed]
      · rw [if_neg hg]
        have hg2 : sys.isStarting = false ∧ sys.scanner = false := by
          simp only [Bool.or_eq_true] at hg; push_neg at hg
          exact ⟨Bool.eq_false_iff.mpr hg.1, Bool.eq_false_iff.mpr hg.2⟩
        have hflagF : (startFlagOf sys.c1 || startFlagOf StartPhase.notCalled) = false :=
          hflag.symm.trans hg2.1
        have hscanF : (startScannerOf sys.c1 || startScannerOf StartPhase.notCalled) = false :=
          hscan.symm.trans hg2.2
        have hof : startFlagOf sys.c1 = false := by
          simpa [startFlagOf] using hflagF
        have hos : startScannerOf sys.c1 = false := by
          simpa [startScannerOf] using hscanF
        have hop : startPassed sys.c1 = false := by
          cases ho : sys.c1
          · rfl
          · rw [ho] at hof; exact absurd hof (by simp [startFlagOf])
          · rw [ho] at hof; exact absurd hof (by simp [startFlagOf])
          · rw [ho] at hof; exact absurd hof (by simp [startFlagOf])
          · rfl
          · rw [ho] at hos; exact absurd hos (by simp [startScannerOf])
        refine ⟨?_, ?_, ?_, ?_⟩
        · simp [setCallPhase, startFlagOf]
        · show sys.scanner
            = (startScannerOf sys.c1 || startScannerOf StartPhase.cleaningUp)
          rw [hg2.2, hos]
          rfl
        · simpa [setCallPhase, startAcqOf] using hacq
        · show ¬(startPassed sys.c1 = true ∧ startPassed StartPhase.cleaningUp = true)
          intro hcon
          rw [hop] at hcon
          exact Bool.false_ne_true hcon.1
    | cleaningUp =>
      rw [h2] at hflag hscan hacq hmutex
      refine ⟨?_, ?_, ?_, ?_⟩
      · simpa [setCallPhase, startFlagOf] using hflag
      · simp [setCallPhase, startScannerOf]
      · simpa [setCallPhase, startAcqOf] using hacq
      · simpa [setCallPhase, startPassed] using hmutex
    | engineReady =>
      rw [h2] at hflag hscan hacq hmutex
      refine ⟨?_, ?_, ?_, ?_⟩
      · simpa [setCallPhase, startFlagOf] using hflag
      · simpa [setCallPhase, startScannerOf] using hscan
      · simp [setCallPhase, startAcqOf, hacq]
      · simpa [setCallPhase, startPassed] using hmutex
    | acquired =>
      rw [h2] at hflag hscan hacq hmutex
      have hop : startPassed sys.c1 = false := by
        simp only [startPassed] at hmutex
        simp only [true_and, and_true] at hmutex
        exact Bool.eq_false_iff.mpr hmutex
      have hof : startFlagOf sys.c1 = false := by
        cases ho : sys.c1
        · rfl
        · rw [ho] at hop; exact absurd hop (by simp [startPassed])
        · rw [ho] at hop; exact absurd hop (by simp [startPassed])
        · rw [ho] at hop; exact absurd hop (by simp [startPassed])
        · rfl
        · rfl
      refine ⟨?_, ?_, ?_, ?_⟩
      · show false = (startFlagOf sys.c1 || startFlagOf StartPhase.completed)
        rw [hof]
        rfl
      · simpa [setCallPhase, startScannerOf] using hscan
      · simpa [setCallPhase, startAcqOf] using hacq
      · show ¬(startPassed sys.c1 = true ∧ startPassed StartPhase.completed = true)
        intro hcon
        rw [hop] at hcon
        exact Bool.false_ne_true hcon.1
    | returned => exact ⟨hflag, hscan, hacq, hmutex⟩
    | completed => exact ⟨hflag, hscan, hacq, hmutex⟩

theorem runScannerSched_inv (sched : List Bool) (sys : ScannerSys)
    (h : scannerInv sys) : scannerInv (runScannerSched sys sched) := by
  induction sched generalizing sys with
  | nil => exact h
  | cons tid rest ih => exact ih _ (scannerStep_inv sys tid h)

theorem runScannerSched_append (sys : ScannerSys) (a b : List Bool) :
    runScannerSched sys (a ++ b) = runScannerSched (runScannerSched sys a) b := by
  induction a generalizing sys with
  | nil => rfl
  | cons tid rest ih => rw [List.cons_append, runScannerSched, runScannerSched, ih]

theorem scannerStep_c2 (sys : ScannerSys) :
    (scannerStep sys false).c2 = sys.c2 := by
  rw [scannerStep]
  rw [show callPhaseOf sys false = sys.c1 from rfl]
  cases sys.c1 with
  | notCalled =>
    by_cases hg : (sys.isStarting || sys.scanner) = true
    · rw [if_pos hg]; simp [setCallPhase]
    · rw [if_neg hg]; simp [setCallPhase]
  | cleaningUp => simp [setCallPhase]
  | engineReady => simp [setCallPhase]
  | acquired => simp [setCallPhase]
  | returned => rfl
  | completed => rfl

theorem scannerStep_t2_returned (sys : ScannerSys)
    (h : sys.c2 = StartPhase.returned) : scannerStep sys true = sys := by
  rw [scannerStep, show callPhaseOf sys true = sys.c2 from rfl, h]

theorem runScannerSched_returned (sched : List Bool) :
    ∀ sys : ScannerSys, sys.c2 = StartPhase.returned →
      (runScannerSched sys sched).c2 = StartPhase.returned := by
  induction sched with
  | nil => exact fun sys h => h
  | cons tid rest ih =>
    intro sys h
    cases tid with
    | false =>
      rw [runScannerSched]
      exact ih _ (by rw [scannerStep_c2]; exact h)
    | true =>
      rw [runScannerSched, scannerStep_t2_returned sys h]
      exact ih sys h

theorem runScannerSched_onlyT1 (sched : List Bool) :
    ∀ sys : ScannerSys, (∀ b ∈ sched, b = false) →
      (runScannerSched sys sched).c2 = sys.c2 := by
  induction sched with
  | nil => exact fun sys _ => rfl
  | cons tid rest ih =>
    intro sys hb
    have htid : tid = false := hb tid (by simp)
    subst htid
    rw [runScannerSched]
    rw [ih _ (fun b hbmem => hb b (by simp [hbmem])), scannerStep_c2]

/-- C4: at most one active capture session per controller instance.  If a
second `startScanner` invocation arrives at any point after the first has
passed the guard (before or after the first resolves), the second is
rejected at the synchronously checked guard — its step only marks it
returned — so the run performs at most one camera acquisition, exactly one
when the first invocation runs to completion; and at every point of the
run at most one invocation is past the guard. -/
theorem startScanner_single_acquisition (pre post : List Bool)
    (hpre : ∀ b ∈ pre, b = false)
    (hpass : startPassed (runScannerSched initScannerSys pre).c1 = true) :
    runScannerSched initScannerSys (pre ++ [true])
      = setCallPhase (runScannerSched initScannerSys pre) true
          StartPhase.returned ∧
    (runScannerSched initScannerSys (pre ++ true :: post)).c2
      = StartPhase.returned ∧
    (runScannerSched initScannerSys (pre ++ true :: post)).acquisitions ≤ 1 ∧
    ((runScannerSched initScannerSys (pre ++ true :: post)).c1
        = StartPhase.completed →
      (runScannerSched initScannerSys (pre ++ true :: post)).acquisitions = 1) ∧
    (∀ p q : List Bool, pre ++ true :: post = p ++ q →
      ¬(startPassed (runScannerSched initScannerSys p).c1 = true ∧
        startPassed (runScannerSched initScannerSys p).c2 = true)) := by
  have hinv0 : scannerInv initScannerSys :=
    ⟨rfl, rfl, rfl, by simp [initScannerSys, startPassed]⟩
  have hinvm := runScannerSched_inv pre initScannerSys hinv0
  have hmid2 : (runScannerSched initScannerSys pre).c2 = StartPhase.notCalled :=
    runScannerSched_onlyT1 pre initScannerSys hpre
  have hguard : ((runScannerSched initScannerSys pre).isStarting
      || (runScannerSched initScannerSys pre).scanner) = true := by
    rw [hinvm.1, hinvm.2.1]
    cases hc1 : (runScannerSched initScannerSys pre).c1 with
    | notCalled => rw [hc1] at hpass; exact absurd hpass (by simp [startPassed])
    | cleaningUp => simp [startFlagOf]
    | engineReady => simp [startFlagOf]
    | acquired => simp [startFlagOf]
    | returned => rw [hc1] at hpass; exact absurd hpass (by simp [startPassed])
    | completed => simp [startScannerOf]
  have hstep : scannerStep (runScannerSched initScannerSys pre) true
      = setCallPhase (runScannerSched initScannerSys pre) true
          StartPhase.returned := by
    rw [scannerStep,
      show ∀ u : ScannerSys, callPhaseOf u true = u.c2 from fun u => rfl, hmid2]
    rw [if_pos hguard]
  have hone : runScannerSched initScannerSys (pre ++ [true])
      = setCallPhase (runScannerSched initScannerSys pre) true
          StartPhase.returned := by
    rw [runScannerSched_append, runScannerSched, runScannerSched, hstep]
  have hsplit : pre ++ true :: post = (pre ++ [true]) ++ post := by
    rw [List.append_assoc]; rfl
  have hfin2 : (runScannerSched initScannerSys (pre ++ true :: post)).c2
      = StartPhase.returned := by
    rw [hsplit, runScannerSched_append, hone]
    exact runScannerSched_returned post _ (by simp [setCallPhase])
  have hinvf := runScannerSched_inv (pre ++ true :: post) initScannerSys hinv0
  have hacqf := hinvf.2.2.1
  rw [hfin2] at hacqf
  refine ⟨hone, hfin2, ?_, ?_, ?_⟩
  · rw [hacqf]
    cases (runScannerSched initScannerSys (pre ++ true :: post)).c1 <;>
      simp [startAcqOf]
  · intro hcomp
    rw [hacqf, hcomp]
    rfl
  · intro p q _
    exact (runScannerSched_inv p initScannerSys hinv0).2.2.2

/-- Witness for `startScanner_single_acquisition`: the second invocation
arrives right after the first passed the guard; the first then runs to
completion, giving exactly one acquisition. -/
theorem startScanner_single_acquisition_witness :
    (∀ b ∈ [false], b = false) ∧
    startPassed (runScannerSched initScannerSys [false]).c1 = true ∧
    (runScannerSched initScannerSys ([false] ++ [true])
      = setCallPhase (runScannerSched initScannerSys [false]) true
          StartPhase.returned ∧
    (runScannerSched initScannerSys
        ([false] ++ true :: [false, false, false])).c2
      = StartPhase.returned ∧
    (runScannerSched initScannerSys
        ([false] ++ true :: [false, false, false])).acquisitions ≤ 1 ∧
    ((runScannerSched initScannerSys
          ([false] ++ true :: [false, false, false])).c1
        = StartPhase.completed →
      (runScannerSched initScannerSys
          ([false] ++ true :: [false, false, false])).acquisitions = 1) ∧
    (∀ p q : List Bool, [false] ++ true :: [false, false, false] = p ++ q →
      ¬(startPassed (runScannerSched initScannerSys p).c1 = true ∧
        startPassed (runScannerSched initScannerSys p).c2 = true))) :=
  ⟨by decide, by decide,
   startScanner_single_acquisition [false] [false, false, false]
     (by decide) (by decide)⟩
